import Mathlib

/-!
Shallow embedding of the TailorTalk appointment-booking backend
(`backend/agent.py`, `backend/tools.py`, `backend/calendar_service.py`,
`backend/llm_service.py`, `backend/database.py`).

Time is modelled at one-minute resolution as `Nat` minutes since a reference
Monday 00:00 local time, so a calendar date is the day index `t / 1440`
(day 0 is a Monday, matching Python `datetime.weekday()` where Monday = 0)
and a time-of-day is `t % 1440` minutes.  The Google Calendar backend is
modelled as a provider function from a query window to either a failure
(`Except.error`, standing for any raised exception) or the list of busy
intervals that Google would return for that window.
-/

namespace TailorTalk

/-- Busy or candidate interval `[start, end)` in minutes. -/
abbrev Interval := Nat × Nat

/-- The external calendar backend: given a query window it either fails
(an exception in the Python source) or returns the events of that window. -/
abbrev Provider := Nat → Nat → Except Unit (List Interval)

/-- Python `t.weekday()`: 0 = Monday, ..., 5 = Saturday, 6 = Sunday. -/
def weekday (t : Nat) : Nat := (t / 1440) % 7

/-- Python `t.hour`. -/
def hourOf (t : Nat) : Nat := (t % 1440) / 60

/-- Python `t.date()` as a day index. -/
def dayOf (t : Nat) : Nat := t / 1440

/-- Minutes past midnight of `t`. -/
def timeOfDay (t : Nat) : Nat := t % 1440

/-- Python `t.replace(hour=9, minute=0, second=0, microsecond=0)`. -/
def replaceHour9 (t : Nat) : Nat := (t / 1440) * 1440 + 540

/-- Python `(t + timedelta(days=1)).replace(hour=9, minute=0, second=0, microsecond=0)`. -/
def nextDayAt9 (t : Nat) : Nat := (t / 1440 + 1) * 1440 + 540

theorem lt_nextDayAt9 (t : Nat) : t + 30 ≤ nextDayAt9 t := by
  have h := Nat.div_add_mod t 1440
  have h2 : t % 1440 < 1440 := Nat.mod_lt _ (by norm_num)
  unfold nextDayAt9
  omega

theorem le_replaceHour9 (t : Nat) (h : hourOf t < 9) : t ≤ replaceHour9 t := by
  have hd := Nat.div_add_mod t 1440
  have hh : (t % 1440) / 60 < 9 := h
  have h60 := Nat.div_add_mod (t % 1440) 60
  have : t % 1440 % 60 < 60 := Nat.mod_lt _ (by norm_num)
  unfold replaceHour9
  omega

theorem replaceHour9_day (t : Nat) : dayOf (replaceHour9 t) = dayOf t := by
  unfold dayOf replaceHour9
  omega

theorem replaceHour9_tod (t : Nat) : timeOfDay (replaceHour9 t) = 540 := by
  unfold timeOfDay replaceHour9
  omega

/-- `GoogleCalendarService.get_events` over a fixed global busy list: the
Google Calendar `events.list` call returns exactly the events that overlap
the query window (`timeMin` is an exclusive lower bound on an event's end,
`timeMax` an exclusive upper bound on its start). -/
def get_events (busy : List Interval) (s e : Nat) : List Interval :=
  busy.filter (fun b => decide (b.1 < e) && decide (s < b.2))

/-- A provider that never fails and serves the fixed busy list. -/
def pureProvider (busy : List Interval) : Provider :=
  fun s e => Except.ok (get_events busy s e)

/-- A provider whose every read raises. -/
def errProvider : Provider := fun _ _ => Except.error ()

/-- `GoogleCalendarService.check_availability`: list the window's events and
report `False` as soon as one overlaps `[s, e)` by the half-open test
`start_time < event_end and end_time > event_start`; any exception while
reading the calendar is caught and also yields `False`. -/
def check_availability (ev : Provider) (s e : Nat) : Bool :=
  match ev s e with
  | Except.error _ => false
  | Except.ok events => events.all (fun b => !(decide (s < b.2) && decide (e > b.1)))

/-- Inner loop of `GoogleCalendarService.find_free_slots`: walk a cursor while
`current_time < end_date and len(free_slots) < num_slots`, skipping weekends
and non-business hours, appending each conflict-free candidate
`[cursor, cursor + duration)`, and advancing by 30 minutes. -/
def find_free_slots_aux (ev : Provider) (endT dur numSlots : Nat)
    (cur : Nat) (acc : List Interval) : List Interval :=
  if h : cur < endT ∧ acc.length < numSlots then
    if 5 ≤ weekday cur then
      find_free_slots_aux ev endT dur numSlots (nextDayAt9 cur) acc
    else if h9 : hourOf cur < 9 then
      find_free_slots_aux ev endT dur numSlots (replaceHour9 cur + 30)
        (if check_availability ev (replaceHour9 cur) (replaceHour9 cur + dur) then
          acc ++ [(replaceHour9 cur, replaceHour9 cur + dur)] else acc)
    else if 17 ≤ hourOf cur then
      find_free_slots_aux ev endT dur numSlots (nextDayAt9 cur) acc
    else
      find_free_slots_aux ev endT dur numSlots (cur + 30)
        (if check_availability ev cur (cur + dur) then acc ++ [(cur, cur + dur)] else acc)
  else acc
termination_by endT - cur
decreasing_by
  · have := lt_nextDayAt9 cur; omega
  · have := le_replaceHour9 cur h9; omega
  · have := lt_nextDayAt9 cur; omega
  · omega

/-- `GoogleCalendarService.find_free_slots` (slots as `(start, end)` pairs). -/
def find_free_slots (ev : Provider) (startDate endDate dur numSlots : Nat) : List Interval :=
  find_free_slots_aux ev endDate dur numSlots startDate []

/-- Loop-iteration counter for `find_free_slots`: mirrors `find_free_slots_aux`
exactly (the accumulated list influences the loop only through its length)
and counts one unit per pass of the `while` body. -/
def find_free_slots_steps (ev : Provider) (endT dur numSlots cur accLen : Nat) : Nat :=
  if h : cur < endT ∧ accLen < numSlots then
    if 5 ≤ weekday cur then
      1 + find_free_slots_steps ev endT dur numSlots (nextDayAt9 cur) accLen
    else if h9 : hourOf cur < 9 then
      1 + find_free_slots_steps ev endT dur numSlots (replaceHour9 cur + 30)
        (if check_availability ev (replaceHour9 cur) (replaceHour9 cur + dur) then
          accLen + 1 else accLen)
    else if 17 ≤ hourOf cur then
      1 + find_free_slots_steps ev endT dur numSlots (nextDayAt9 cur) accLen
    else
      1 + find_free_slots_steps ev endT dur numSlots (cur + 30)
        (if check_availability ev cur (cur + dur) then accLen + 1 else accLen)
  else 0
termination_by endT - cur
decreasing_by
  · have := lt_nextDayAt9 cur; omega
  · have := le_replaceHour9 cur h9; omega
  · have := lt_nextDayAt9 cur; omega
  · omega

/-- First cursor position of the `CalendarTools.find_available_slots` search:
`datetime.strptime(start_date, ...)` gives midnight of the requested date, and
when that date lies strictly before today's date the source substitutes
`datetime.now().replace(hour=9, minute=0, second=0, microsecond=0)`. -/
def effectiveSearchStart (now startDay : Nat) : Nat :=
  if startDay < dayOf now then replaceHour9 now else startDay * 1440

/-- `CalendarTools.find_available_slots`: parse the requested date to midnight,
fall back to today at 09:00 when the requested date lies strictly in the past,
and search a `daysAhead`-day window. -/
def find_available_slots (ev : Provider) (now startDay dur numSuggestions daysAhead : Nat) :
    List Interval :=
  find_free_slots ev (effectiveSearchStart now startDay)
    (effectiveSearchStart now startDay + daysAhead * 1440) dur numSuggestions

/-- Iteration counter of the search performed by `find_available_slots`. -/
def find_available_slots_steps (ev : Provider) (now startDay dur numSuggestions daysAhead : Nat) :
    Nat :=
  find_free_slots_steps ev (effectiveSearchStart now startDay + daysAhead * 1440) dur
    numSuggestions (effectiveSearchStart now startDay) 0

/-- Properties every slot appended by the search loop satisfies. -/
def goodSlot (ev : Provider) (dur : Nat) (s : Interval) : Prop :=
  s.2 = s.1 + dur ∧ weekday s.1 < 5 ∧ 540 ≤ timeOfDay s.1 ∧ timeOfDay s.1 < 1020 ∧
    check_availability ev s.1 s.2 = true

theorem tod_bounds (t : Nat) (h9 : ¬ hourOf t < 9) (h17 : ¬ 17 ≤ hourOf t) :
    540 ≤ timeOfDay t ∧ timeOfDay t < 1020 := by
  have h60 := Nat.div_add_mod (t % 1440) 60
  have hlt : t % 1440 % 60 < 60 := Nat.mod_lt _ (by norm_num)
  unfold hourOf at h9 h17
  unfold timeOfDay
  omega

theorem weekday_replaceHour9 (t : Nat) : weekday (replaceHour9 t) = weekday t := by
  unfold weekday replaceHour9
  omega

/-- If every availability check fails (for instance because every calendar
read raises), the search loop appends nothing. -/
theorem find_free_slots_aux_unavailable (ev : Provider) (endT dur n : Nat)
    (hev : ∀ s e, check_availability ev s e = false) :
    ∀ (m cur : Nat) (acc : List Interval), endT - cur ≤ m →
      find_free_slots_aux ev endT dur n cur acc = acc := by
  intro m
  induction m with
  | zero =>
    intro cur acc hm
    rw [find_free_slots_aux]
    have hc : ¬(cur < endT ∧ acc.length < n) := by omega
    rw [dif_neg hc]
  | succ k ih =>
    intro cur acc hm
    rw [find_free_slots_aux]
    by_cases hc : cur < endT ∧ acc.length < n
    · rw [dif_pos hc]
      by_cases hw : 5 ≤ weekday cur
      · rw [if_pos hw]
        exact ih _ _ (by have := lt_nextDayAt9 cur; omega)
      · rw [if_neg hw]
        by_cases h9 : hourOf cur < 9
        · rw [dif_pos h9, hev, if_neg Bool.false_ne_true]
          exact ih _ _ (by have := le_replaceHour9 cur h9; omega)
        · rw [dif_neg h9]
          by_cases h17 : 17 ≤ hourOf cur
          · rw [if_pos h17]
            exact ih _ _ (by have := lt_nextDayAt9 cur; omega)
          · rw [if_neg h17, hev, if_neg Bool.false_ne_true]
            exact ih _ _ (by omega)
    · rw [dif_neg hc]

/-- Every element of the loop result is either an element of the accumulator
or a newly found slot: one starting at or after the cursor, of the requested
duration, on a weekday, inside business hours, and conflict-free. -/
theorem find_free_slots_aux_mem (ev : Provider) (endT dur n : Nat) :
    ∀ (m cur : Nat) (acc : List Interval) (slot : Interval),
      endT - cur ≤ m → slot ∈ find_free_slots_aux ev endT dur n cur acc →
      slot ∈ acc ∨ (cur ≤ slot.1 ∧ goodSlot ev dur slot) := by
  intro m
  induction m with
  | zero =>
    intro cur acc slot hm hmem
    rw [find_free_slots_aux] at hmem
    have hc : ¬(cur < endT ∧ acc.length < n) := by omega
    rw [dif_neg hc] at hmem
    exact Or.inl hmem
  | succ k ih =>
    intro cur acc slot hm hmem
    rw [find_free_slots_aux] at hmem
    by_cases hc : cur < endT ∧ acc.length < n
    · rw [dif_pos hc] at hmem
      by_cases hw : 5 ≤ weekday cur
      · rw [if_pos hw] at hmem
        rcases ih _ _ _ (by have := lt_nextDayAt9 cur; omega) hmem with h | h
        · exact Or.inl h
        · exact Or.inr ⟨by have := lt_nextDayAt9 cur; omega, h.2⟩
      · rw [if_neg hw] at hmem
        by_cases h9 : hourOf cur < 9
        · rw [dif_pos h9] at hmem
          have hle := le_replaceHour9 cur h9
          rcases ih _ _ _ (by omega) hmem with h | h
          · by_cases hav : check_availability ev (replaceHour9 cur) (replaceHour9 cur + dur) = true
            · rw [if_pos hav] at h
              rcases List.mem_append.mp h with h' | h'
              · exact Or.inl h'
              · have hs : slot = (replaceHour9 cur, replaceHour9 cur + dur) :=
                  List.mem_singleton.mp h'
                refine Or.inr ⟨by rw [hs]; exact hle, ?_, ?_, ?_, ?_, ?_⟩
                · rw [hs]
                · rw [hs]; show weekday (replaceHour9 cur) < 5
                  rw [weekday_replaceHour9]; omega
                · rw [hs]; show 540 ≤ timeOfDay (replaceHour9 cur)
                  rw [replaceHour9_tod]
                · rw [hs]; show timeOfDay (replaceHour9 cur) < 1020
                  rw [replaceHour9_tod]; omega
                · rw [hs]; exact hav
            · rw [if_neg hav] at h
              exact Or.inl h
          · exact Or.inr ⟨by omega, h.2⟩
        · rw [dif_neg h9] at hmem
          by_cases h17 : 17 ≤ hourOf cur
          · rw [if_pos h17] at hmem
            rcases ih _ _ _ (by have := lt_nextDayAt9 cur; omega) hmem with h | h
            · exact Or.inl h
            · exact Or.inr ⟨by have := lt_nextDayAt9 cur; omega, h.2⟩
          · rw [if_neg h17] at hmem
            rcases ih _ _ _ (by omega) hmem with h | h
            · by_cases hav : check_availability ev cur (cur + dur) = true
              · rw [if_pos hav] at h
                rcases List.mem_append.mp h with h' | h'
                · exact Or.inl h'
                · have hs : slot = (cur, cur + dur) := List.mem_singleton.mp h'
                  have htod := tod_bounds cur h9 h17
                  refine Or.inr ⟨by rw [hs], ?_, ?_, ?_, ?_, ?_⟩
                  · rw [hs]
                  · rw [hs]; show weekday cur < 5; omega
                  · rw [hs]; exact htod.1
                  · rw [hs]; exact htod.2
                  · rw [hs]; exact hav
              · rw [if_neg hav] at h
                exact Or.inl h
            · exact Or.inr ⟨by omega, h.2⟩
    · rw [dif_neg hc] at hmem
      exact Or.inl hmem

/-- The loop never grows the result beyond `numSlots`. -/
theorem find_free_slots_aux_length (ev : Provider) (endT dur n : Nat) :
    ∀ (m cur : Nat) (acc : List Interval), endT - cur ≤ m → acc.length ≤ n →
      (find_free_slots_aux ev endT dur n cur acc).length ≤ n := by
  intro m
  induction m with
  | zero =>
    intro cur acc hm hlen
    rw [find_free_slots_aux]
    have hc : ¬(cur < endT ∧ acc.length < n) := by omega
    rw [dif_neg hc]; exact hlen
  | succ k ih =>
    intro cur acc hm hlen
    rw [find_free_slots_aux]
    by_cases hc : cur < endT ∧ acc.length < n
    · rw [dif_pos hc]
      by_cases hw : 5 ≤ weekday cur
      · rw [if_pos hw]
        exact ih _ _ (by have := lt_nextDayAt9 cur; omega) hlen
      · rw [if_neg hw]
        by_cases h9 : hourOf cur < 9
        · rw [dif_pos h9]
          have hle := le_replaceHour9 cur h9
          apply ih _ _ (by omega)
          by_cases hav : check_availability ev (replaceHour9 cur) (replaceHour9 cur + dur) = true
          · rw [if_pos hav]; simp; omega
          · rw [if_neg hav]; exact hlen
        · rw [dif_neg h9]
          by_cases h17 : 17 ≤ hourOf cur
          · rw [if_pos h17]
            exact ih _ _ (by have := lt_nextDayAt9 cur; omega) hlen
          · rw [if_neg h17]
            apply ih _ _ (by omega)
            by_cases hav : check_availability ev cur (cur + dur) = true
            · rw [if_pos hav]; simp; omega
            · rw [if_neg hav]; exact hlen
    · rw [dif_neg hc]; exact hlen

/-- The loop keeps the result ordered by start time: slots are appended at
ever-later cursor positions. -/
theorem find_free_slots_aux_sorted (ev : Provider) (endT dur n : Nat) :
    ∀ (m cur : Nat) (acc : List Interval), endT - cur ≤ m →
      acc.Pairwise (fun a b => a.1 ≤ b.1) → (∀ s ∈ acc, s.1 ≤ cur) →
      (find_free_slots_aux ev endT dur n cur acc).Pairwise (fun a b => a.1 ≤ b.1) := by
  intro m
  induction m with
  | zero =>
    intro cur acc hm hp hub
    rw [find_free_slots_aux]
    have hc : ¬(cur < endT ∧ acc.length < n) := by omega
    rw [dif_neg hc]; exact hp
  | succ k ih =>
    intro cur acc hm hp hub
    rw [find_free_slots_aux]
    by_cases hc : cur < endT ∧ acc.length < n
    · rw [dif_pos hc]
      by_cases hw : 5 ≤ weekday cur
      · rw [if_pos hw]
        refine ih _ _ (by have := lt_nextDayAt9 cur; omega) hp ?_
        intro s hs
        have := hub s hs
        have := lt_nextDayAt9 cur
        omega
      · rw [if_neg hw]
        by_cases h9 : hourOf cur < 9
        · rw [dif_pos h9]
          have hle := le_replaceHour9 cur h9
          by_cases hav : check_availability ev (replaceHour9 cur) (replaceHour9 cur + dur) = true
          · rw [if_pos hav]
            refine ih _ _ (by omega) ?_ ?_
            · rw [List.pairwise_append]
              refine ⟨hp, List.pairwise_singleton _ _, ?_⟩
              intro a ha b hb
              have hb' : b = (replaceHour9 cur, replaceHour9 cur + dur) :=
                List.mem_singleton.mp hb
              rw [hb']
              have := hub a ha
              omega
            · intro s hs
              rcases List.mem_append.mp hs with h' | h'
              · have := hub s h'; omega
              · have hs' : s = (replaceHour9 cur, replaceHour9 cur + dur) :=
                  List.mem_singleton.mp h'
                rw [hs']; omega
          · rw [if_neg hav]
            refine ih _ _ (by omega) hp ?_
            intro s hs
            have := hub s hs
            omega
        · rw [dif_neg h9]
          by_cases h17 : 17 ≤ hourOf cur
          · rw [if_pos h17]
            refine ih _ _ (by have := lt_nextDayAt9 cur; omega) hp ?_
            intro s hs
            have := hub s hs
            have := lt_nextDayAt9 cur
            omega
          · rw [if_neg h17]
            by_cases hav : check_availability ev cur (cur + dur) = true
            · rw [if_pos hav]
              refine ih _ _ (by omega) ?_ ?_
              · rw [List.pairwise_append]
                refine ⟨hp, List.pairwise_singleton _ _, ?_⟩
                intro a ha b hb
                have hb' : b = (cur, cur + dur) := List.mem_singleton.mp hb
                rw [hb']
                exact hub a ha
              · intro s hs
                rcases List.mem_append.mp hs with h' | h'
                · have := hub s h'; omega
                · have hs' : s = (cur, cur + dur) := List.mem_singleton.mp h'
                  rw [hs']; omega
            · rw [if_neg hav]
              refine ih _ _ (by omega) hp ?_
              intro s hs
              have := hub s hs
              omega
    · rw [dif_neg hc]; exact hp

/-- Every pass of the loop advances the cursor by at least 30 minutes, so the
iteration count is bounded by one 48th of the horizon in minutes. -/
theorem find_free_slots_steps_le (ev : Provider) (endT dur n : Nat) :
    ∀ (m cur accLen : Nat), endT - cur ≤ 30 * m →
      find_free_slots_steps ev endT dur n cur accLen ≤ m := by
  intro m
  induction m with
  | zero =>
    intro cur accLen hm
    rw [find_free_slots_steps]
    have hc : ¬(cur < endT ∧ accLen < n) := by omega
    rw [dif_neg hc]
  | succ k ih =>
    intro cur accLen hm
    rw [find_free_slots_steps]
    by_cases hc : cur < endT ∧ accLen < n
    · rw [dif_pos hc]
      by_cases hw : 5 ≤ weekday cur
      · rw [if_pos hw]
        have hstep := ih (nextDayAt9 cur) accLen (by have := lt_nextDayAt9 cur; omega)
        omega
      · rw [if_neg hw]
        by_cases h9 : hourOf cur < 9
        · rw [dif_pos h9]
          have hle := le_replaceHour9 cur h9
          have hstep := ih (replaceHour9 cur + 30)
            (if check_availability ev (replaceHour9 cur) (replaceHour9 cur + dur) then
              accLen + 1 else accLen) (by omega)
          omega
        · rw [dif_neg h9]
          by_cases h17 : 17 ≤ hourOf cur
          · rw [if_pos h17]
            have hstep := ih (nextDayAt9 cur) accLen (by have := lt_nextDayAt9 cur; omega)
            omega
          · rw [if_neg h17]
            have hstep := ih (cur + 30)
              (if check_availability ev cur (cur + dur) then accLen + 1 else accLen) (by omega)
            omega
    · rw [dif_neg hc]
      omega

theorem check_availability_pure_true (busy : List Interval) (s e : Nat) :
    check_availability (pureProvider busy) s e = true ↔
      ∀ b ∈ get_events busy s e, ¬(s < b.2 ∧ e > b.1) := by
  unfold check_availability pureProvider
  simp [List.all_eq_true]
  constructor
  · intro h a b hab hs
    rcases h a b hab with h' | h'
    · omega
    · exact h'
  · intro h a b hab
    rcases Nat.lt_or_ge s b with hs | hs
    · exact Or.inr (h a b hab hs)
    · exact Or.inl (by omega)

theorem find_available_slots_err (now startDay dur n daysAhead : Nat) :
    find_available_slots errProvider now startDay dur n daysAhead = [] := by
  unfold find_available_slots find_free_slots
  exact find_free_slots_aux_unavailable errProvider _ dur n (fun _ _ => rfl) _ _ [] le_rfl

theorem find_free_slots_concrete :
    find_free_slots (pureProvider []) 0 1440 60 1 = [(540, 600)] := by
  simp [find_free_slots, find_free_slots_aux, weekday, hourOf, replaceHour9, nextDayAt9,
    check_availability, pureProvider, get_events]

theorem find_available_slots_concrete :
    find_available_slots (pureProvider []) 900 0 60 3 7 =
      [(540, 600), (570, 630), (600, 660)] := by
  simp [find_available_slots, effectiveSearchStart, dayOf, find_free_slots, find_free_slots_aux,
    weekday, hourOf, replaceHour9, nextDayAt9, check_availability, pureProvider, get_events]

/-- C4: every slot returned by `find_free_slots` has exactly the requested
duration, starts on a weekday inside business hours `[09:00, 17:00)`, and does
not overlap any event the calendar provider reports for the slot's window. -/
theorem find_free_slots_slot_properties (busy : List Interval)
    (startDate endDate dur numSlots : Nat) (slot : Interval)
    (h : slot ∈ find_free_slots (pureProvider busy) startDate endDate dur numSlots) :
    slot.2 = slot.1 + dur ∧
    weekday slot.1 ≠ 5 ∧ weekday slot.1 ≠ 6 ∧
    540 ≤ timeOfDay slot.1 ∧ timeOfDay slot.1 < 1020 ∧
    ∀ b ∈ get_events busy slot.1 slot.2, ¬(slot.1 < b.2 ∧ b.1 < slot.2) := by
  unfold find_free_slots at h
  rcases find_free_slots_aux_mem (pureProvider busy) endDate dur numSlots _ startDate [] slot
      le_rfl h with h' | h'
  · simp at h'
  · obtain ⟨-, hdur, hwd, htod1, htod2, hav⟩ := h'
    refine ⟨hdur, by omega, by omega, htod1, htod2, ?_⟩
    intro b hb hov
    exact (check_availability_pure_true busy slot.1 slot.2).mp hav b hb ⟨hov.1, hov.2⟩

theorem find_free_slots_slot_properties_witness :
    ((540, 600) : Interval).2 = ((540, 600) : Interval).1 + 60 ∧
    weekday 540 ≠ 5 ∧ weekday 540 ≠ 6 ∧ 540 ≤ timeOfDay 540 ∧ timeOfDay 540 < 1020 := by
  have hmem : ((540, 600) : Interval) ∈ find_free_slots (pureProvider []) 0 1440 60 1 := by
    rw [find_free_slots_concrete]
    exact List.mem_singleton.mpr rfl
  have h := find_free_slots_slot_properties [] 0 1440 60 1 (540, 600) hmem
  exact ⟨h.1, h.2.1, h.2.2.1, h.2.2.2.1, h.2.2.2.2.1⟩

/-- C5: for any provider behaviour, `find_available_slots` returns at most
`numSuggestions` slots in non-decreasing start order, and the underlying
search loop runs at most `daysAhead * 48` iterations. -/
theorem find_available_slots_count_order_termination (ev : Provider)
    (now startDay dur n daysAhead : Nat) :
    (find_available_slots ev now startDay dur n daysAhead).length ≤ n ∧
    (find_available_slots ev now startDay dur n daysAhead).Pairwise
      (fun a b => a.1 ≤ b.1) ∧
    find_available_slots_steps ev now startDay dur n daysAhead ≤ daysAhead * 48 := by
  unfold find_available_slots find_available_slots_steps find_free_slots
  refine ⟨?_, ?_, ?_⟩
  · exact find_free_slots_aux_length ev _ dur n _ _ [] le_rfl (Nat.zero_le n)
  · exact find_free_slots_aux_sorted ev _ dur n _ _ [] le_rfl List.Pairwise.nil
      (by intro s hs; simp at hs)
  · exact find_free_slots_steps_le ev _ dur n (daysAhead * 48) _ 0 (by omega)

/-- C6 counterexample: invoked at 15:00 on a Monday (`now = 900`) with the
requested date equal to today (`startDay = 0`), the search already returns the
slot starting at 09:00 that same morning, a cursor position strictly earlier
than the current time — so the cursor does not start at
`max(candidateStart at 09:00, now)`. -/
theorem search_considers_past_cursor_counterexample :
    (540, 600) ∈ find_available_slots (pureProvider []) 900 0 60 3 7 ∧ 540 < 900 := by
  rw [find_available_slots_concrete]
  exact ⟨by simp, by omega⟩

/-- C6 amended: the cursor starts at midnight of the requested date, or at
today 09:00 when the requested date lies strictly in the past; every returned
slot starts at or after that position, but the position itself may lie before
the current time, so slots earlier than `now` can be returned. -/
theorem find_available_slots_cursor_start (ev : Provider) (now startDay dur n daysAhead : Nat)
    (slot : Interval) (h : slot ∈ find_available_slots ev now startDay dur n daysAhead) :
    effectiveSearchStart now startDay ≤ slot.1 := by
  unfold find_available_slots find_free_slots at h
  rcases find_free_slots_aux_mem ev _ dur n _ _ [] slot le_rfl h with h' | h'
  · simp at h'
  · exact h'.1

theorem find_available_slots_cursor_start_witness :
    effectiveSearchStart 900 0 ≤ 540 := by
  have hmem : ((540, 600) : Interval) ∈ find_available_slots (pureProvider []) 900 0 60 3 7 := by
    rw [find_available_slots_concrete]
    simp
  exact find_available_slots_cursor_start (pureProvider []) 900 0 60 3 7 (540, 600) hmem

/-- C7: for non-empty intervals, the exact-slot availability check reports a
conflict (returns `false`) iff the half-open intervals overlap, i.e.
`startA < endB` and `startB < endA`; back-to-back intervals never conflict. -/
theorem overlap_conflict_iff (sa ea sb eb : Nat) (ha : sa < ea) (hb : sb < eb) :
    (check_availability (pureProvider [(sb, eb)]) sa ea = false ↔ sa < eb ∧ sb < ea) ∧
    (ea = sb ∨ eb = sa → check_availability (pureProvider [(sb, eb)]) sa ea = true) := by
  have key : check_availability (pureProvider [(sb, eb)]) sa ea = false ↔ sa < eb ∧ sb < ea := by
    unfold check_availability pureProvider get_events
    by_cases h1 : sb < ea <;> by_cases h2 : sa < eb <;>
      simp [h1, h2, List.filter]
  refine ⟨key, fun hbt => ?_⟩
  cases hav : check_availability (pureProvider [(sb, eb)]) sa ea
  · have := key.mp hav
    rcases hbt with h | h <;> omega
  · rfl

theorem overlap_conflict_iff_witness :
    (check_availability (pureProvider [(60, 120)]) 0 60 = false ↔ 0 < 120 ∧ 60 < 60) ∧
    (60 = 60 ∨ 120 = 0 → check_availability (pureProvider [(60, 120)]) 0 60 = true) :=
  overlap_conflict_iff 0 60 60 120 (by omega) (by omega)

/-- C9: when every calendar read raises, the exact-slot check reports the slot
as unavailable and the free-slot search returns the empty list; no error is
propagated to the caller of either operation. -/
theorem calendar_read_failure_handling (ev : Provider) (s e startDate endDate dur n : Nat)
    (h : ∀ a b, ev a b = Except.error ()) :
    check_availability ev s e = false ∧ find_free_slots ev startDate endDate dur n = [] := by
  have hf : ∀ a b, check_availability ev a b = false := by
    intro a b
    unfold check_availability
    rw [h]
  exact ⟨hf s e, find_free_slots_aux_unavailable ev endDate dur n hf _ startDate [] le_rfl⟩

theorem calendar_read_failure_handling_witness :
    check_availability errProvider 0 60 = false ∧
    find_free_slots errProvider 0 10080 60 3 = [] :=
  calendar_read_failure_handling errProvider 0 60 0 10080 60 3 (fun _ _ => rfl)

/-!
Conversation orchestrator (`backend/agent.py`) and the canned text of
`backend/llm_service.py`.  The fields the NLU extraction step yields for one
turn are modelled with `none` standing for a missing or JSON-null field;
dates are day indices and times minutes past midnight.  Apostrophes inside
source strings are written with the `\x27` escape.
-/

/-- One turn's extraction result (`extracted_info`). -/
structure ExtractedInfo where
  title : Option String := none
  date : Option Nat := none
  start_time : Option Nat := none
  duration : Option Nat := none
deriving Repr, DecidableEq

/-- Python truthiness of `extracted_info.get(key)` for a string field:
absent, null and the empty string are all falsy. -/
def truthyStr : Option String → Bool
  | some s => !s.isEmpty
  | none => false

/-- The `missing_info` list built by `CalendarAgent._ask_clarification`,
in its fixed title, date, start-time order. -/
def missing_info (e : ExtractedInfo) : List String :=
  (if truthyStr e.title then [] else ["the purpose of the appointment"]) ++
    (if e.date.isSome then [] else ["the preferred date"]) ++
    (if e.start_time.isSome then [] else ["the preferred time"])

/-- The clarification question `CalendarAgent._ask_clarification` stores on
the turn state (plain `', '.join` of the missing items). -/
def ask_clarification_question (e : ExtractedInfo) : String :=
  if (missing_info e).isEmpty then
    "Could you please provide more details about your appointment?"
  else
    "I need more information to book your appointment. Could you please provide " ++
      String.intercalate ", " (missing_info e) ++ "?"

/-- `LLMService.generate_clarification_question`: same missing-field order but
different item phrasing and an explicit one/two/many join with a final
"and". -/
def generate_clarification_question (e : ExtractedInfo) : String :=
  let missing_fields :=
    (if truthyStr e.title then [] else ["the purpose or title of your appointment"]) ++
      (if e.date.isSome then [] else ["the date you\x27d prefer"]) ++
      (if e.start_time.isSome then [] else ["what time you\x27d like to meet"])
  match missing_fields with
  | [] => "Could you provide more details about your appointment?"
  | [a] => "I need to know " ++ a ++ " to book your appointment."
  | [a, b] => "I need to know " ++ a ++ " and " ++ b ++ " to book your appointment."
  | l => "I need to know " ++ String.intercalate ", " l.dropLast ++ ", and " ++
      l.getLastD "" ++ " to book your appointment."

/-- `LLMService.generate_availability_response` (date and time fields are
rendered through the numeric time model). -/
def generate_availability_response (slots : List Interval) : String :=
  if slots.isEmpty then
    "I couldn\x27t find any available slots in the timeframe you requested. Would you like me to check a different date range?"
  else
    ((slots.enumFrom 1).foldl
      (fun msg p =>
        msg ++ toString p.1 ++ ". " ++ toString (dayOf p.2.1) ++ " from " ++
          toString (timeOfDay p.2.1) ++ " to " ++ toString (timeOfDay p.2.2) ++ "\n")
      "I found some available time slots for you:\n\n") ++
      "\nWhich slot would you prefer? You can just tell me the number or describe your preference."

/-- The booking payload `CalendarTools.create_event` assembles on success. -/
structure BookingInfo where
  title : String
  date : Nat
  start_time : Nat
  end_time : Nat
deriving Repr, DecidableEq

/-- Per-turn `AgentState` (the LangGraph state record). -/
structure AgentS where
  lastMessage : String
  extracted : ExtractedInfo
  suggested : List Interval
  booking_confirmed : Bool
  booking_info : Option BookingInfo
  needs_clarification : Bool
  clarification_question : String
deriving Repr, DecidableEq

/-- `CalendarAgent.process_message` builds each turn's agent state from the
inbound message alone: all other fields start at their defaults, so no field
extracted in an earlier turn is carried into the graph. -/
def AgentS.init (msg : String) (e : ExtractedInfo) : AgentS :=
  { lastMessage := msg, extracted := e, suggested := [], booking_confirmed := false,
    booking_info := none, needs_clarification := false, clarification_question := "" }

/-- `CalendarTools.check_specific_time_availability`. -/
def check_specific_time_availability (ev : Provider) (d t dur : Nat) : Bool :=
  check_availability ev (d * 1440 + t) (d * 1440 + t + dur)

/-- `CalendarTools.create_event`: on provider success it returns the booking
payload with `end = start + duration`; a provider failure raises, modelled as
`Except.error`. -/
def tools_create_event (providerOk : Bool) (title : String) (d t dur : Nat) :
    Except Unit BookingInfo :=
  if providerOk then
    Except.ok { title := title, date := d, start_time := t, end_time := t + dur }
  else Except.error ()

/-- `CalendarAgent._check_availability`: with date and start time both
present, test the exact requested slot first and set `booking_confirmed` when
it is free; otherwise search for up to 3 alternatives over a 7-day horizon
starting from the requested date (today when the date key is absent). -/
def check_availability_node (ev : Provider) (now : Nat) (st : AgentS) : AgentS :=
  match st.extracted.date, st.extracted.start_time with
  | some d, some t =>
      if check_specific_time_availability ev d t (st.extracted.duration.getD 60) then
        { st with booking_confirmed := true }
      else
        { st with suggested :=
            find_available_slots ev now d (st.extracted.duration.getD 60) 3 7 }
  | some d, none =>
      { st with suggested :=
          find_available_slots ev now d (st.extracted.duration.getD 60) 3 7 }
  | none, _ =>
      { st with suggested :=
          find_available_slots ev now (dayOf now) (st.extracted.duration.getD 60) 3 7 }

/-- `CalendarAgent._confirm_booking`: attempt the provider write; on success
record the booking, on any exception merely reset `booking_confirmed` (the
clarification fields are left untouched). -/
def confirm_booking_node (providerOk : Bool) (st : AgentS) : AgentS :=
  match st.extracted.date, st.extracted.start_time with
  | some d, some t =>
      match tools_create_event providerOk (st.extracted.title.getD "Appointment") d t
          (st.extracted.duration.getD 60) with
      | Except.ok b => { st with booking_info := some b, booking_confirmed := true }
      | Except.error _ => { st with booking_confirmed := false }
  | _, _ => { st with booking_confirmed := false }

/-- `CalendarAgent._ask_clarification`. -/
def ask_clarification_node (st : AgentS) : AgentS :=
  { st with needs_clarification := true,
            clarification_question := ask_clarification_question st.extracted }

/-- The per-turn outcome, named after the branch `_generate_response` takes. -/
inductive Outcome where
  | clarification : String → Outcome
  | bookingConfirmed : BookingInfo → Outcome
  | slotSuggestions : List Interval → Outcome
  | generalReply : String → Outcome
deriving Repr, DecidableEq

/-- `CalendarAgent._generate_response` branch order: clarification first, then
confirmed booking, then suggested slots, else a free-form LLM reply (the
`llm` argument models the prompt plus Gemini call on the last user
message). -/
def generate_response_node (llm : String → String) (st : AgentS) : Outcome :=
  if st.needs_clarification then Outcome.clarification st.clarification_question
  else
    match st.booking_info, st.booking_confirmed with
    | some b, true => Outcome.bookingConfirmed b
    | _, _ =>
        if !st.suggested.isEmpty then Outcome.slotSuggestions st.suggested
        else Outcome.generalReply (llm st.lastMessage)

/-- Response text of each outcome, as `_generate_response` renders it. -/
def Outcome.render : Outcome → String
  | Outcome.clarification q => q
  | Outcome.bookingConfirmed b =>
      "Great! I\x27ve successfully booked your appointment \x27" ++ b.title ++ "\x27 for " ++
        toString b.date ++ " at " ++ toString b.start_time ++ "."
  | Outcome.slotSuggestions slots =>
      (slots.enumFrom 1).foldl
        (fun msg p => msg ++ "\n" ++ toString p.1 ++ ". " ++ toString (dayOf p.2.1) ++
          " at " ++ toString (timeOfDay p.2.1) ++ " - " ++ toString (timeOfDay p.2.2))
        "I found some available time slots for you. Please let me know which one works best:"
  | Outcome.generalReply t => t

/-- `CalendarAgent._route_after_extraction`. -/
def route_after_extraction (e : ExtractedInfo) : String :=
  if truthyStr e.title && e.date.isSome then "check_availability" else "clarify"

/-- `CalendarAgent._route_after_availability`. -/
def route_after_availability (st : AgentS) : String :=
  if st.booking_confirmed then "confirm"
  else if !st.suggested.isEmpty then "suggest"
  else "clarify"

/-- The booking path of one turn, entered at the `check_availability` node
(i.e. after extraction routed there), following the graph's conditional
edges to `_generate_response`. -/
def run_booking_turn (ev : Provider) (providerOk : Bool) (llm : String → String)
    (now : Nat) (msg : String) (e : ExtractedInfo) : Outcome :=
  if route_after_availability (check_availability_node ev now (AgentS.init msg e)) =
      "confirm" then
    generate_response_node llm
      (confirm_booking_node providerOk (check_availability_node ev now (AgentS.init msg e)))
  else if route_after_availability (check_availability_node ev now (AgentS.init msg e)) =
      "suggest" then
    generate_response_node llm (check_availability_node ev now (AgentS.init msg e))
  else
    generate_response_node llm
      (ask_clarification_node (check_availability_node ev now (AgentS.init msg e)))

/-- `CalendarAgent.process_message` around the booking path: the user message
and the rendered response are appended to the conversation history before the
turn returns. -/
def process_booking_message (ev : Provider) (providerOk : Bool) (llm : String → String)
    (now : Nat) (history : List (String × String)) (msg : String) (e : ExtractedInfo) :
    List (String × String) × Outcome :=
  let out := run_booking_turn ev providerOk llm now msg e
  (history ++ [("user", msg), ("assistant", Outcome.render out)], out)

/-!
Persistence layer (`backend/database.py`).  The `extracted_info` JSON column
is modelled as an association list from key to JSON value, where a stored
`null` is `none`; a dict is Python-truthy iff it has at least one key.
-/

/-- A JSON object of extraction results as stored in `conversation_states`. -/
abbrev ExtractedDict := List (String × Option String)

/-- Python `d.get(k)`: `None` both when the key is absent and when it maps to
JSON null. -/
def dict_get (d : ExtractedDict) (k : String) : Option String :=
  match d.lookup k with
  | some v => v
  | none => none

/-- `DatabaseService.save_conversation_state`, restricted to the
`extracted_info` column: an existing row's column is overwritten only when
the new dict is truthy (non-empty); a missing row is created with the new
dict (`extracted_info or {}`). -/
def DatabaseService.save_conversation_state (stored : Option ExtractedDict)
    (extracted_info : ExtractedDict) : Option ExtractedDict :=
  match stored with
  | some old => some (if extracted_info.isEmpty then old else extracted_info)
  | none => some extracted_info

/-- Row of the `messages` table. -/
structure MessageRow where
  conversation_id : String
  role : String
  content : String
deriving Repr, DecidableEq

/-- Row of the `conversation_states` table. -/
structure StateRow where
  conversation_id : String
  extracted_info : ExtractedDict
deriving Repr, DecidableEq

/-- Row of the `calendar_events` table. -/
structure EventRow where
  conversation_id : String
  event_id : String
  title : String
deriving Repr, DecidableEq

/-- Row of the `conversations` table. -/
structure ConversationRow where
  conversation_id : String
  updated_at : Nat
deriving Repr, DecidableEq

/-- The four tables the backend touches. -/
structure Database where
  messages : List MessageRow
  conversation_states : List StateRow
  calendar_events : List EventRow
  conversations : List ConversationRow
deriving Repr, DecidableEq

/-- `DatabaseService.clear_conversation`: delete the conversation's message
rows and state row, touch the conversation record's `updated_at`, and leave
`calendar_events` alone. -/
def DatabaseService.clear_conversation (db : Database) (now : Nat) (cid : String) : Database :=
  { messages := db.messages.filter (fun m => !(m.conversation_id == cid)),
    conversation_states := db.conversation_states.filter (fun s => !(s.conversation_id == cid)),
    calendar_events := db.calendar_events,
    conversations := db.conversations.map
      (fun c => if c.conversation_id == cid then { c with updated_at := now } else c) }

/-- The agent's state: the database plus the in-memory conversation map. -/
structure AgentStore where
  db : Database
  sessions : List (String × List (String × String))
deriving Repr, DecidableEq

/-- `CalendarAgent.clear_conversation`: clear the database rows, then delete
the in-memory session entry when present. -/
def CalendarAgent.clear_conversation (a : AgentStore) (now : Nat) (cid : String) : AgentStore :=
  { db := DatabaseService.clear_conversation a.db now cid,
    sessions := a.sessions.filter (fun p => !(p.1 == cid)) }

/-- Discriminator for the clarification variant. -/
def Outcome.isClarification : Outcome → Bool
  | Outcome.clarification _ => true
  | _ => false

theorem lookup_filter_ne {β : Type} (cid : String) (l : List (String × β)) :
    (l.filter (fun p => !(p.1 == cid))).lookup cid = none := by
  induction l with
  | nil => rfl
  | cons x xs ih =>
    rcases x with ⟨k, v⟩
    by_cases hk : k = cid
    · subst hk
      simpa [List.filter_cons] using ih
    · have hbeq : (k == cid) = false := beq_eq_false_iff_ne.mpr hk
      have hbeq' : (cid == k) = false := beq_eq_false_iff_ne.mpr (Ne.symm hk)
      simp [List.filter_cons, hbeq, List.lookup, hbeq', ih]

/-- C1 counterexample: turn 1 stores only a date, turn 2 extracts only a
title; the stored `extracted_info` after turn 2 has the title but the date
has been erased, because a later non-empty extraction replaces the whole
stored dict (each turn's graph state starts empty, so no per-field merge ever
happens). -/
theorem field_accumulation_counterexample :
    dict_get ((DatabaseService.save_conversation_state
        (DatabaseService.save_conversation_state none [("date", some "2025-06-10")])
        [("title", some "Dentist")]).getD []) "title" = some "Dentist" ∧
    dict_get ((DatabaseService.save_conversation_state
        (DatabaseService.save_conversation_state none [("date", some "2025-06-10")])
        [("title", some "Dentist")]).getD []) "date" = none := by
  decide

/-- C1 amended: a later turn's non-empty extraction dict replaces the
session's stored `extracted_info` wholesale; previously stored fields survive
only when the later extraction is the empty dict. -/
theorem field_replacement_amended (turn1 turn2 : ExtractedDict)
    (h : turn2.isEmpty = false) :
    DatabaseService.save_conversation_state
      (DatabaseService.save_conversation_state none turn1) turn2 = some turn2 := by
  simp [DatabaseService.save_conversation_state, h]

theorem field_replacement_amended_witness :
    DatabaseService.save_conversation_state
      (DatabaseService.save_conversation_state none [("date", some "2025-06-10")])
      [("title", some "Dentist")] = some [("title", some "Dentist")] :=
  field_replacement_amended [("date", some "2025-06-10")] [("title", some "Dentist")] rfl

/-- C2 counterexample: with only the title missing, the turn routes to the
clarification node, whose question is the "I need more information ..."
sentence of `_ask_clarification`, not the claimed "I need to know the purpose
or title of your appointment to book your appointment." sentence (that text
lives in `LLMService.generate_clarification_question`, which no turn calls). -/
theorem clarification_text_counterexample :
    route_after_extraction { title := none, date := some 20, start_time := some 600 } =
      "clarify" ∧
    ask_clarification_question { title := none, date := some 20, start_time := some 600 } =
      "I need more information to book your appointment. Could you please provide the purpose of the appointment?" ∧
    ask_clarification_question { title := none, date := some 20, start_time := some 600 } ≠
      "I need to know the purpose or title of your appointment to book your appointment." := by
  refine ⟨rfl, rfl, ?_⟩
  decide

/-- C2 amended: the turn's clarification question comes from
`_ask_clarification` and reads "I need more information to book your
appointment. Could you please provide X, Y, Z?" with the missing fields in
the fixed title, date, start-time order joined by plain commas; the claimed
"I need to know ... and ..." wording with a final "and" is produced by the
never-invoked `LLMService.generate_clarification_question`. -/
theorem clarification_text_amended (e : ExtractedInfo) :
    (truthyStr e.title = false → e.date.isSome = true → e.start_time.isSome = true →
      ask_clarification_question e =
        "I need more information to book your appointment. Could you please provide the purpose of the appointment?" ∧
      generate_clarification_question e =
        "I need to know the purpose or title of your appointment to book your appointment.") ∧
    (truthyStr e.title = false → e.date.isSome = false → e.start_time.isSome = true →
      ask_clarification_question e =
        "I need more information to book your appointment. Could you please provide the purpose of the appointment, the preferred date?" ∧
      generate_clarification_question e =
        "I need to know the purpose or title of your appointment and the date you\x27d prefer to book your appointment.") ∧
    (truthyStr e.title = false → e.date.isSome = false → e.start_time.isSome = false →
      ask_clarification_question e =
        "I need more information to book your appointment. Could you please provide the purpose of the appointment, the preferred date, the preferred time?" ∧
      generate_clarification_question e =
        "I need to know the purpose or title of your appointment, the date you\x27d prefer, and what time you\x27d like to meet to book your appointment.") := by
  refine ⟨?_, ?_, ?_⟩ <;> intro h1 h2 h3 <;>
    refine ⟨?_, ?_⟩ <;>
      (simp [ask_clarification_question, missing_info, generate_clarification_question,
        h1, h2, h3, String.intercalate]
       try rfl)

theorem clarification_text_amended_witness :
    ask_clarification_question { title := none, date := none, start_time := none } =
      "I need more information to book your appointment. Could you please provide the purpose of the appointment, the preferred date, the preferred time?" ∧
    generate_clarification_question { title := none, date := none, start_time := none } =
      "I need to know the purpose or title of your appointment, the date you\x27d prefer, and what time you\x27d like to meet to book your appointment." :=
  (clarification_text_amended { title := none, date := none, start_time := none }).2.2
    rfl rfl rfl

/-- C3 counterexample: date and start time are both present and no free slot
exists anywhere (every calendar read fails, so every check reports busy); the
turn's outcome is a Clarify, but it carries `_ask_clarification`'s generic
"Could you please provide more details about your appointment?" text, not an
"I couldn\x27t find any available slots" message (that sentence lives in the
never-invoked `LLMService.generate_availability_response`). -/
theorem no_slots_clarify_message_counterexample :
    run_booking_turn errProvider true (fun _ => "GENERAL") 900 "book a visit"
        { title := some "Dentist", date := some 1, start_time := some 600 } =
      Outcome.clarification "Could you please provide more details about your appointment?" ∧
    "Could you please provide more details about your appointment?" ≠
      generate_availability_response [] := by
  constructor
  · have hempty : find_available_slots errProvider 900 1 60 3 7 = [] :=
      find_available_slots_err 900 1 60 3 7
    simp [run_booking_turn, check_availability_node, check_specific_time_availability,
      check_availability, errProvider, hempty, route_after_availability,
      ask_clarification_node, generate_response_node, AgentS.init,
      ask_clarification_question, missing_info, truthyStr]
    decide
  · decide

/-- C3 amended: with date and start time both present the exact requested
slot is tested first and a conflict-free slot routes the turn to the
confirmation node; otherwise (and likewise when start time is absent) up to 3
alternative slots are searched from the requested date over a 7-day horizon,
a non-empty result becoming the SlotSuggestions outcome and an empty result a
Clarify outcome that carries `_ask_clarification`'s question (not an
"I couldn\x27t find any available slots" message). -/
theorem availability_routing_amended (ev : Provider) (providerOk : Bool)
    (llm : String → String) (now : Nat) (msg : String) (d : Nat) (e : ExtractedInfo)
    (hd : e.date = some d) :
    (∀ t, e.start_time = some t →
      check_specific_time_availability ev d t (e.duration.getD 60) = true →
      route_after_availability (check_availability_node ev now (AgentS.init msg e)) =
        "confirm") ∧
    (∀ t, e.start_time = some t →
      check_specific_time_availability ev d t (e.duration.getD 60) = false →
      route_after_availability (check_availability_node ev now (AgentS.init msg e)) =
        (if (find_available_slots ev now d (e.duration.getD 60) 3 7).isEmpty then "clarify"
         else "suggest") ∧
      ((find_available_slots ev now d (e.duration.getD 60) 3 7).isEmpty = false →
        run_booking_turn ev providerOk llm now msg e =
          Outcome.slotSuggestions (find_available_slots ev now d (e.duration.getD 60) 3 7)) ∧
      ((find_available_slots ev now d (e.duration.getD 60) 3 7).isEmpty = true →
        run_booking_turn ev providerOk llm now msg e =
          Outcome.clarification (ask_clarification_question e))) ∧
    (e.start_time = none →
      route_after_availability (check_availability_node ev now (AgentS.init msg e)) =
        (if (find_available_slots ev now d (e.duration.getD 60) 3 7).isEmpty then "clarify"
         else "suggest")) := by
  have hext : (AgentS.init msg e).extracted = e := rfl
  refine ⟨?_, ?_, ?_⟩
  · intro t ht hav
    unfold check_availability_node route_after_availability
    rw [hext, hd, ht]
    simp [hav]
  · intro t ht hav
    have hnode : check_availability_node ev now (AgentS.init msg e) =
        { AgentS.init msg e with
            suggested := find_available_slots ev now d (e.duration.getD 60) 3 7 } := by
      unfold check_availability_node
      rw [hext, hd, ht]
      simp only [hav, Bool.false_eq_true, if_false]
      rfl
    have hroute : route_after_availability (check_availability_node ev now (AgentS.init msg e)) =
        (if (find_available_slots ev now d (e.duration.getD 60) 3 7).isEmpty then "clarify"
         else "suggest") := by
      rw [hnode]
      unfold route_after_availability
      cases hemp : (find_available_slots ev now d (e.duration.getD 60) 3 7).isEmpty <;>
        simp [AgentS.init, hemp]
    refine ⟨hroute, ?_, ?_⟩
    · intro hne
      have hr : route_after_availability (check_availability_node ev now (AgentS.init msg e)) =
          "suggest" := by
        rw [hroute, hne]
        simp
      unfold run_booking_turn
      rw [hr, if_neg (by decide), if_pos rfl, hnode]
      unfold generate_response_node
      simp [AgentS.init, hne]
    · intro hemp
      have hr : route_after_availability (check_availability_node ev now (AgentS.init msg e)) =
          "clarify" := by
        rw [hroute, hemp]
        simp
      unfold run_booking_turn
      rw [hr, if_neg (by decide), if_neg (by decide), hnode]
      unfold ask_clarification_node generate_response_node
      simp [AgentS.init]
  · intro ht
    have hnode : check_availability_node ev now (AgentS.init msg e) =
        { AgentS.init msg e with
            suggested := find_available_slots ev now d (e.duration.getD 60) 3 7 } := by
      unfold check_availability_node
      rw [hext, hd, ht]
      rfl
    rw [hnode]
    unfold route_after_availability
    cases hemp : (find_available_slots ev now d (e.duration.getD 60) 3 7).isEmpty <;>
      simp [AgentS.init, hemp]

theorem availability_routing_amended_witness :
    run_booking_turn errProvider true (fun _ => "G") 900 "w"
        { title := some "Checkup", date := some 2, start_time := some 600 } =
      Outcome.clarification (ask_clarification_question
        { title := some "Checkup", date := some 2, start_time := some 600 }) := by
  have hempty : (find_available_slots errProvider 900 2 60 3 7).isEmpty = true := by
    rw [find_available_slots_err]
    rfl
  exact ((availability_routing_amended errProvider true (fun _ => "G") 900 "w" 2
      { title := some "Checkup", date := some 2, start_time := some 600 } rfl).2.1 600 rfl
      rfl).2.2 hempty

/-- C8 counterexample: the exact slot is free, the turn reaches the
confirmation node, and the provider write fails; `_confirm_booking` only
resets `booking_confirmed`, so `_generate_response` falls through to the
free-form LLM branch — the outcome is a GeneralReply, not a Clarification
carrying a failure notice. -/
theorem booking_failure_outcome_counterexample :
    run_booking_turn (pureProvider []) false
        (fun _ => "How can I help you with your appointment?") 900 "book it"
        { title := some "Call", date := some 1, start_time := some 600,
          duration := some 30 } =
      Outcome.generalReply "How can I help you with your appointment?" ∧
    Outcome.isClarification (run_booking_turn (pureProvider []) false
        (fun _ => "How can I help you with your appointment?") 900 "book it"
        { title := some "Call", date := some 1, start_time := some 600,
          duration := some 30 }) = false := by
  exact ⟨rfl, rfl⟩

/-- C8 amended: when the provider's event-creation call fails, the turn still
completes and both the user message and the rendered reply are appended to
history — but the outcome is the fallback GeneralReply produced by the
free-form LLM branch, not a Clarification carrying a failure notice. -/
theorem booking_failure_amended (ev : Provider) (llm : String → String) (now : Nat)
    (history : List (String × String)) (msg : String) (e : ExtractedInfo) (d t : Nat)
    (hd : e.date = some d) (ht : e.start_time = some t)
    (havail : check_specific_time_availability ev d t (e.duration.getD 60) = true) :
    process_booking_message ev false llm now history msg e =
      (history ++ [("user", msg), ("assistant", llm msg)],
        Outcome.generalReply (llm msg)) := by
  simp [process_booking_message, run_booking_turn, check_availability_node, AgentS.init,
    hd, ht, havail, route_after_availability, confirm_booking_node, tools_create_event,
    generate_response_node, Outcome.render]

theorem booking_failure_amended_witness :
    process_booking_message (pureProvider []) false (fun _ => "LLM") 900 [] "hi"
        { title := some "Call", date := some 1, start_time := some 600 } =
      ([("user", "hi"), ("assistant", "LLM")], Outcome.generalReply "LLM") :=
  booking_failure_amended (pureProvider []) (fun _ => "LLM") 900 [] "hi"
    { title := some "Call", date := some 1, start_time := some 600 } 1 600 rfl rfl rfl

/-- C10: clearing a conversation removes exactly that conversation's message
rows, its conversation-state row and its in-memory session entry, keeps the
persisted calendar-event records identical, and preserves every message,
state row and session of every other conversation id. -/
theorem clear_conversation_frame (a : AgentStore) (now : Nat) (cid : String) :
    (CalendarAgent.clear_conversation a now cid).db.calendar_events =
      a.db.calendar_events ∧
    (∀ m ∈ (CalendarAgent.clear_conversation a now cid).db.messages,
      m.conversation_id ≠ cid) ∧
    (∀ s ∈ (CalendarAgent.clear_conversation a now cid).db.conversation_states,
      s.conversation_id ≠ cid) ∧
    (CalendarAgent.clear_conversation a now cid).sessions.lookup cid = none ∧
    (∀ m ∈ a.db.messages, m.conversation_id ≠ cid →
      m ∈ (CalendarAgent.clear_conversation a now cid).db.messages) ∧
    (∀ s ∈ a.db.conversation_states, s.conversation_id ≠ cid →
      s ∈ (CalendarAgent.clear_conversation a now cid).db.conversation_states) ∧
    (∀ p ∈ a.sessions, p.1 ≠ cid →
      p ∈ (CalendarAgent.clear_conversation a now cid).sessions) := by
  unfold CalendarAgent.clear_conversation DatabaseService.clear_conversation
  refine ⟨rfl, ?_, ?_, ?_, ?_, ?_, ?_⟩
  · intro m hm
    have := (List.mem_filter.mp hm).2
    simpa using this
  · intro s hs
    have := (List.mem_filter.mp hs).2
    simpa using this
  · exact lookup_filter_ne cid a.sessions
  · intro m hm hne
    exact List.mem_filter.mpr ⟨hm, by simpa using hne⟩
  · intro s hs hne
    exact List.mem_filter.mpr ⟨hs, by simpa using hne⟩
  · intro p hp hne
    exact List.mem_filter.mpr ⟨hp, by simpa using hne⟩

/-- Concrete two-conversation store used by the frame witness. -/
def sampleStore : AgentStore :=
  { db := { messages := [{ conversation_id := "a", role := "user", content := "hi" },
                         { conversation_id := "b", role := "user", content := "yo" }],
            conversation_states := [{ conversation_id := "a", extracted_info := [] }],
            calendar_events := [{ conversation_id := "a", event_id := "e1", title := "T" }],
            conversations := [{ conversation_id := "a", updated_at := 0 }] },
    sessions := [("a", []), ("b", [])] }

theorem clear_conversation_frame_witness :
    (CalendarAgent.clear_conversation sampleStore 5 "a").db.calendar_events =
      [{ conversation_id := "a", event_id := "e1", title := "T" }] ∧
    ({ conversation_id := "b", role := "user", content := "yo" } : MessageRow) ∈
      (CalendarAgent.clear_conversation sampleStore 5 "a").db.messages := by
  have h := clear_conversation_frame sampleStore 5 "a"
  exact ⟨h.1, h.2.2.2.2.1 _ (by decide) (by decide)⟩

end TailorTalk
